import Mathlib

/-!
Shallow embedding of the LwJSON core (src/lwjson/lwjson.c and its header).

Modelling conventions:
* A C cursor `const char* s` into the NUL-terminated input is a `List Char`
  suffix of the input; reading `*s` is `peekC s`, which yields the NUL
  character when the list is empty, and `++s` is `List.tail`.
* Token pointers are natural-number references: reference `0` is the
  instance's embedded `first_token`, reference `i + 1` is arena slot `i`
  (`&lw->tokens[i]`).  A C `NULL` token pointer is `Option.none`.
* The C float accumulator (`lwjson_real_t`) is modelled as an exact
  unnormalized fraction `RawReal` (all operations in `prv_parse_number` are
  additions, multiplications and divisions, exact over the rationals).
* Loops are given explicit fuel; callers supply fuel large enough that the
  exhaustion branch is unreachable on the inputs of interest.
-/

deriving instance DecidableEq for Except

namespace LwJson

/-- `lwjsonr_t` result enumeration from lwjson.h. -/
inductive Lwjsonr where
  | lwjsonOK
  | lwjsonERR
  | lwjsonERRJSON
  | lwjsonERRMEM
deriving DecidableEq, Repr

export Lwjsonr (lwjsonOK lwjsonERR lwjsonERRJSON lwjsonERRMEM)

/-- `lwjson_type_t` token-type enumeration from lwjson.h.  `STRING` is the
first enumerator (value 0), hence the type a `memset`-zeroed token carries. -/
inductive LwType where
  | STRING
  | NUM_INT
  | NUM_REAL
  | OBJECT
  | ARRAY
  | TRUE
  | FALSE
  | NULL
deriving DecidableEq, Repr

/-- Exact model of the C `lwjson_real_t` accumulator: an unnormalized
fraction `n / d`.  Division and multiplication in `prv_parse_number` only
ever produce nonzero denominators (powers of ten). -/
structure RawReal where
  n : Int
  d : Int
deriving DecidableEq, Repr

namespace RawReal

def ofInt (i : Int) : RawReal := ⟨i, 1⟩

def add (a b : RawReal) : RawReal := ⟨a.n * b.d + b.n * a.d, a.d * b.d⟩

def mul (a b : RawReal) : RawReal := ⟨a.n * b.n, a.d * b.d⟩

def div (a b : RawReal) : RawReal := ⟨a.n * b.d, a.d * b.n⟩

def neg (a : RawReal) : RawReal := ⟨-a.n, a.d⟩

/-- Rational value denoted by the accumulator. -/
def toRat (a : RawReal) : ℚ := (a.n : ℚ) / (a.d : ℚ)

/-- The C cast `(lwjson_int_t)num` (float-to-int, truncation toward zero);
`Int.tdiv` is exactly truncation toward zero. -/
def truncToInt (a : RawReal) : Int := Int.tdiv a.n a.d

end RawReal

/-- `lwjson_token_t` from lwjson.h.  The C `union u` is modelled as a
product: the parser writes exactly one member per token (chosen by the final
`type`), and no reader ever reads a member that was not written, so no union
punning is observable.  `token_name_len` / `token_value_len` are the list
lengths of the corresponding slices. -/
structure LwToken where
  next : Option Nat := none
  typ : LwType := .STRING
  token_name : List Char := []
  token_value : List Char := []
  num_int : Int := 0
  num_real : RawReal := ⟨0, 1⟩
  first_child : Option Nat := none
deriving DecidableEq, Repr

/-- The all-zero token produced by `memset(.., 0x00, ..)`: `NULL` pointers,
type 0 (= `STRING`), zero lengths and values. -/
def zeroToken : LwToken := {}

/-- `lwjson_t` instance from lwjson.h. -/
structure Lwjson where
  tokens : List LwToken
  tokens_len : Nat
  next_free_token_pos : Nat
  first_token : LwToken
  parsed : Bool
deriving DecidableEq, Repr

/-- Read a token through a reference (0 = `&lw->first_token`,
`i + 1` = `&lw->tokens[i]`). -/
def getTok (lw : Lwjson) (r : Nat) : LwToken :=
  if r = 0 then lw.first_token else lw.tokens.getD (r - 1) zeroToken

/-- Write a token through a reference. -/
def setTok (lw : Lwjson) (r : Nat) (t : LwToken) : Lwjson :=
  if r = 0 then { lw with first_token := t }
  else { lw with tokens := lw.tokens.set (r - 1) t }

/-- In-place update of the token behind a reference. -/
def modifyTok (lw : Lwjson) (r : Nat) (f : LwToken → LwToken) : Lwjson :=
  setTok lw r (f (getTok lw r))

/-- The NUL character terminating a C string. -/
def nulC : Char := Char.ofNat 0

/-- Reading `*s` through a cursor: end of input reads as NUL. -/
def peekC (s : List Char) : Char := s.headD nulC

/-- Character class treated as *blank* by `prv_skip_blank`. -/
def isBlankC (c : Char) : Bool :=
  c = ' ' || c = Char.ofNat 9 || c = Char.ofNat 13 || c = Char.ofNat 10 || c = Char.ofNat 12

/-- Scanning loop of `prv_skip_blank` (lwjson.c:56-71): walk forward while
blank; yield the suffix at the first non-blank character, or `none` when the
terminating NUL is reached first. -/
def skipBlankAux : List Char → Option (List Char)
  | [] => none
  | c :: rest =>
    if c = nulC then none
    else if isBlankC c then skipBlankAux rest
    else some (c :: rest)

/-- `prv_skip_blank` (lwjson.c:56-71).  The C function writes the advanced
cursor back through `*p` only when it stops at a non-blank character; when it
runs into the NUL it returns OK *without* writing back, leaving the caller's
cursor where it was.  (With a non-null cursor it never returns an error.) -/
def prv_skip_blank (p : List Char) : List Char :=
  (skipBlankAux p).getD p

/-- Character-collecting loop of `prv_parse_string` (lwjson.c:96-108): fails
at the NUL; stops at a `"` whose immediately preceding character (`prev_ch`,
initially NUL) is not a backslash; collects every other character.  Returns
the collected slice and the cursor just past the closing quote. -/
def strLoop : List Char → Char → Except Lwjsonr (List Char × List Char)
  | [], _ => .error lwjsonERRJSON
  | c :: rest, prev =>
    if c = nulC then .error lwjsonERRJSON
    else if c = '"' ∧ prev ≠ '\\' then .ok ([], rest)
    else
      match strLoop rest c with
      | .ok (cs, r) => .ok (c :: cs, r)
      | .error e => .error e

/-- `prv_parse_string` (lwjson.c:81-118): skip blanks, require an opening
`"`, run the collecting loop, then (lwjson.c:110-112) skip one further `"`
if present, skip trailing blanks, and return `(value slice, length, cursor)`.
No escape decoding is performed. -/
def prv_parse_string (p : List Char) : Except Lwjsonr (List Char × Nat × List Char) :=
  let p1 := prv_skip_blank p
  match p1 with
  | '"' :: s =>
    match strLoop s nulC with
    | .error e => .error e
    | .ok (content, rest) =>
      let rest2 := match rest with
        | '"' :: r => r
        | _ => rest
      .ok (content, content.length, prv_skip_blank rest2)
  | _ => .error lwjsonERRJSON

/-- `prv_parse_property_name` (lwjson.c:127-143): a string per
`prv_parse_string`, then a `:` and blanks.  Returns `(name, cursor)`. -/
def prv_parse_property_name (p : List Char) : Except Lwjsonr (List Char × List Char) :=
  match prv_parse_string p with
  | .error e => .error e
  | .ok (name, _, p1) =>
    match p1 with
    | ':' :: s => .ok (name, prv_skip_blank s)
    | _ => .error lwjsonERRJSON

/-- Integer-digit loop of `prv_parse_number` (lwjson.c:175-177):
`num = num * 10 + (*s - '0')` over the accumulator. -/
def digitsLoop : List Char → RawReal → RawReal × List Char
  | [], num => (num, [])
  | c :: rest, num =>
    if '0' ≤ c ∧ c ≤ '9' then
      digitsLoop rest ((num.mul (.ofInt 10)).add (.ofInt (c.toNat - '0'.toNat)))
    else (num, c :: rest)

/-- Fractional-digit loop of `prv_parse_number` (lwjson.c:187-189):
accumulates `dec_num` and the power-of-ten `exp` together. -/
def fracLoop : List Char → RawReal → RawReal → (RawReal × RawReal × List Char)
  | [], dec, ex => (dec, ex, [])
  | c :: rest, dec, ex =>
    if '0' ≤ c ∧ c ≤ '9' then
      fracLoop rest ((dec.mul (.ofInt 10)).add (.ofInt (c.toNat - '0'.toNat))) (ex.mul (.ofInt 10))
    else (dec, ex, c :: rest)

/-- Exponent-digit loop of `prv_parse_number` (lwjson.c:207-209):
`exp_cnt = exp_cnt * 10 + digit`. -/
def expCntLoop : List Char → Nat → Nat × List Char
  | [], e => (e, [])
  | c :: rest, e =>
    if '0' ≤ c ∧ c ≤ '9' then expCntLoop rest (e * 10 + (c.toNat - '0'.toNat))
    else (e, c :: rest)

/-- Exponent application loops of `prv_parse_number` (lwjson.c:211-215):
repeated `num /= 10` (negative exponent) or `num *= 10`. -/
def applyExp (minus : Bool) : Nat → RawReal → RawReal
  | 0, num => num
  | k + 1, num => applyExp minus k (if minus then num.div (.ofInt 10) else num.mul (.ofInt 10))

/-- `prv_parse_number` (lwjson.c:153-232).  Returns the detected type, the
float accumulator, the value of the C `(lwjson_int_t)num` cast (meaningful
for the INT type), and the cursor.  Note the leading-zero guard from
lwjson.c:171 is transcribed verbatim: `*s == '0' && (*(s+1) < '0' &&
*(s+1) > '9')`, a condition that no character satisfies. -/
def prv_parse_number (p : List Char) :
    Except Lwjsonr (LwType × RawReal × Int × List Char) :=
  let s0 := prv_skip_blank p
  if peekC s0 = nulC then .error lwjsonERRJSON
  else
    let is_minus := peekC s0 = '-'
    let s1 := if is_minus then s0.tail else s0
    if peekC s1 = nulC ∨ peekC s1 < '0' ∨ '9' < peekC s1 ∨
        (peekC s1 = '0' ∧ (peekC s1.tail < '0' ∧ '9' < peekC s1.tail)) then
      .error lwjsonERRJSON
    else
      let (num0, s2) := digitsLoop s1 (.ofInt 0)
      -- fractional part (lwjson.c:178-191)
      let fracRes : Except Lwjsonr (LwType × RawReal × List Char) :=
        if peekC s2 = '.' then
          let s3 := s2.tail
          if peekC s3 < '0' ∨ '9' < peekC s3 then .error lwjsonERRJSON
          else
            let (dec, ex, s4) := fracLoop s3 (.ofInt 0) (.ofInt 1)
            .ok (.NUM_REAL, num0.add (dec.div ex), s4)
        else .ok (.NUM_INT, num0, s2)
      match fracRes with
      | .error e => .error e
      | .ok (ty1, num1, s5) =>
        -- exponent part (lwjson.c:192-216)
        let expRes : Except Lwjsonr (LwType × RawReal × List Char) :=
          if peekC s5 = 'e' ∨ peekC s5 = 'E' then
            let s6 := s5.tail
            let is_minus_exp := peekC s6 = '-'
            let s7 := if is_minus_exp then s6.tail else s6
            let s8 := if peekC s7 = '+' then s7.tail else s7
            if peekC s8 < '0' ∨ '9' < peekC s8 then .error lwjsonERRJSON
            else
              let (ecnt, s9) := expCntLoop s8 0
              .ok (.NUM_REAL, applyExp is_minus_exp ecnt num1, s9)
          else .ok (ty1, num1, s5)
        match expRes with
        | .error e => .error e
        | .ok (ty2, num2, s10) =>
          let numF := if is_minus then num2.neg else num2
          .ok (ty2, numF, numF.truncToInt, s10)

/-- `prv_alloc_token` (lwjson.c:42-49): zero the slot at the allocation
cursor and hand out a reference to it, advancing the cursor; `none` when the
arena is exhausted. -/
def prv_alloc_token (lw : Lwjson) : Option (Nat × Lwjson) :=
  if lw.next_free_token_pos < lw.tokens_len then
    some (lw.next_free_token_pos + 1,
      { lw with tokens := lw.tokens.set lw.next_free_token_pos zeroToken,
                next_free_token_pos := lw.next_free_token_pos + 1 })
  else none

/-- Tail of a sibling chain, following `next` (the `for` loop at
lwjson.c:427); fuel-bounded. -/
def chainTail (lw : Lwjson) : Nat → Nat → Nat
  | 0, c => c
  | f + 1, c =>
    match (getTok lw c).next with
    | none => c
    | some nx => chainTail lw f nx

/-- Appending a token to the current container's child list
(lwjson.c:422-429): first child when the list is empty, otherwise linked
behind the current tail sibling. -/
def appendChild (lw : Lwjson) (toR t : Nat) : Lwjson :=
  match (getTok lw toR).first_child with
  | none => modifyTok lw toR (fun tk => { tk with first_child := some t })
  | some c =>
    modifyTok lw (chainTail lw (lw.tokens_len + 1) c)
      (fun tk => { tk with next := some t })

/-- Close of the current object/array (lwjson.c:388-402): pop the current
container `toR`, clearing its temporary parent pointer.  When the popped
parent is the C `NULL` the root has closed: only input exhaustion may
follow (note `prv_skip_blank` does not advance onto the NUL, so actual
trailing blanks leave the cursor on a blank and produce `lwjsonERR`). -/
def parseClose (lw : Lwjson) (p : List Char) (toR : Nat) :
    (Lwjsonr × Lwjson) ⊕ (Lwjson × List Char × Nat) :=
  match (getTok lw toR).next with
  | none =>
    .inl ((if peekC (prv_skip_blank p.tail) = nulC then lwjsonOK else lwjsonERR),
      modifyTok lw toR (fun tk => { tk with next := none }))
  | some par =>
    .inr (modifyTok lw toR (fun tk => { tk with next := none }), p.tail, par)

/-- After-value separator check for scalar tokens (lwjson.c:495-513): skip
blanks, then require `,`, `]` or `\x7d`; a comma is consumed immediately. -/
def parseAfterValue (lw4 : Lwjson) (p3 : List Char) (toR : Nat) :
    (Lwjsonr × Lwjson) ⊕ (Lwjson × List Char × Nat) :=
  if peekC (prv_skip_blank p3) = nulC ∨
      (peekC (prv_skip_blank p3) ≠ ',' ∧ peekC (prv_skip_blank p3) ≠ ']'
        ∧ peekC (prv_skip_blank p3) ≠ '}') then
    .inl (lwjsonERRJSON, lw4)
  else
    .inr (lw4,
      (if peekC (prv_skip_blank p3) = ',' then (prv_skip_blank p3).tail
       else prv_skip_blank p3), toR)

/-- The scalar cases of the value switch (lwjson.c:440-488): string, the
lower-case literals `true` / `false` / `null`, or a number; everything else
is a JSON error (a number failure is also reported as `lwjsonERRJSON`).
Writes the new token `t`'s type and payload. -/
def parseScalarValue (lw3 : Lwjson) (t : Nat) (p2 : List Char) :
    Except Lwjsonr (Lwjson × List Char) :=
  if peekC p2 = '"' then
    -- lwjson.c:440-446
    match prv_parse_string p2 with
    | .error e => .error e
    | .ok (val, _, p3) =>
      .ok (modifyTok lw3 t
        (fun tk => { tk with typ := .STRING, token_value := val }), p3)
  else if peekC p2 = 't' then
    -- lwjson.c:447-456
    match p2 with
    | 't' :: 'r' :: 'u' :: 'e' :: rest =>
      .ok (modifyTok lw3 t (fun tk => { tk with typ := .TRUE }), rest)
    | _ => .error lwjsonERRJSON
  else if peekC p2 = 'f' then
    -- lwjson.c:457-466
    match p2 with
    | 'f' :: 'a' :: 'l' :: 's' :: 'e' :: rest =>
      .ok (modifyTok lw3 t (fun tk => { tk with typ := .FALSE }), rest)
    | _ => .error lwjsonERRJSON
  else if peekC p2 = 'n' then
    -- lwjson.c:467-476
    match p2 with
    | 'n' :: 'u' :: 'l' :: 'l' :: rest =>
      .ok (modifyTok lw3 t (fun tk => { tk with typ := .NULL }), rest)
    | _ => .error lwjsonERRJSON
  else if peekC p2 = '-' ∨ ('0' ≤ peekC p2 ∧ peekC p2 ≤ '9') then
    -- lwjson.c:477-487
    match prv_parse_number p2 with
    | .error _ => .error lwjsonERRJSON
    | .ok (ty, numr, numi, p3) =>
      .ok (modifyTok lw3 t (fun tk =>
        if ty = .NUM_INT then { tk with typ := ty, num_int := numi }
        else { tk with typ := ty, num_real := numr }), p3)
  else .error lwjsonERRJSON

/-- Dispatch on the first character of the new token's value
(lwjson.c:431-493).  `lw3` already holds the freshly appended token `t`.  A
nested container stores the current container in the new token's sibling
link (lwjson.c:436) and continues the loop immediately; a scalar parses its
payload and falls through to the after-value check. -/
def parseValueDispatch (lw3 : Lwjson) (t : Nat) (p2 : List Char) (toR : Nat) :
    (Lwjsonr × Lwjson) ⊕ (Lwjson × List Char × Nat) :=
  if peekC p2 = '{' ∨ peekC p2 = '[' then
    .inr (modifyTok lw3 t (fun tk =>
      { tk with typ := (if peekC p2 = '{' then LwType.OBJECT else LwType.ARRAY),
                next := some toR }), p2.tail, t)
  else
    match parseScalarValue lw3 t p2 with
    | .error e => .inl (e, lw3)
    | .ok (lw4, p3) => parseAfterValue lw4 p3 toR

/-- Property-name handling for a freshly allocated token (lwjson.c:411-420):
when the current container is not an array, the next characters must form a
quoted name followed by `:`, written into token `t`. -/
def parsePropertyStep (lw1 : Lwjson) (p : List Char) (toR t : Nat) :
    Except Lwjsonr (Lwjson × List Char) :=
  if (getTok lw1 toR).typ ≠ LwType.ARRAY then
    if peekC p ≠ '"' then .error lwjsonERRJSON
    else
      match prv_parse_property_name p with
      | .error e => .error e
      | .ok (name, p1) =>
        .ok (modifyTok lw1 t (fun tk => { tk with token_name := name }), p1)
  else .ok (lw1, p)

/-- Handling of a freshly allocated token `t` (lwjson.c:411-429): parse the
property name when the current container is an object, append the token to
the container's child list, then dispatch on the value. -/
def parseNewToken (lw1 : Lwjson) (p : List Char) (toR t : Nat) :
    (Lwjsonr × Lwjson) ⊕ (Lwjson × List Char × Nat) :=
  match parsePropertyStep lw1 p toR t with
  | .error e => .inl (e, lw1)
  | .ok (lw2, p2) => parseValueDispatch (appendChild lw2 toR t) t p2 toR

/-- One iteration of the processing loop of `lwjson_parse`
(lwjson.c:365-514).  `Sum.inl` is a loop exit with the final result;
`Sum.inr` continues with an updated instance, cursor and current container
reference (the `first_check` flag is false on every continuation).  The C
running variable `res` equals `lwjsonOK` whenever the loop condition is
re-examined — every assignment of a different value is immediately followed
by `goto ret` — so the normal loop exit (lwjson.c:515-518) yields
`lwjsonOK` after clearing the current container's name. -/
def parseIter (lw : Lwjson) (p0 : List Char) (toR : Nat) (first_check : Bool) :
    (Lwjsonr × Lwjson) ⊕ (Lwjson × List Char × Nat) :=
  if peekC p0 = nulC then
    -- normal loop exit (lwjson.c:515-518)
    .inl (lwjsonOK, modifyTok lw toR (fun tk => { tk with token_name := [] }))
  else if first_check then
    -- lwjson.c:370-382
    if peekC (prv_skip_blank p0) = '{' then
      .inr (modifyTok lw toR (fun tk => { tk with typ := .OBJECT }),
        (prv_skip_blank p0).tail, toR)
    else if peekC (prv_skip_blank p0) = '[' then
      .inr (modifyTok lw toR (fun tk => { tk with typ := .ARRAY }),
        (prv_skip_blank p0).tail, toR)
    else .inl (lwjsonERRMEM, lw)
  else if peekC (prv_skip_blank p0) = ',' then
    -- lwjson.c:383-386
    .inr (lw, (prv_skip_blank p0).tail, toR)
  else if peekC (prv_skip_blank p0) = (if (getTok lw toR).typ = .OBJECT then '}' else ']') then
    parseClose lw (prv_skip_blank p0) toR
  else
    match prv_alloc_token lw with
    | none => .inl (lwjsonERRMEM, lw)   -- lwjson.c:404-409
    | some (t, lw1) => parseNewToken lw1 (prv_skip_blank p0) toR t

/-- The processing loop of `lwjson_parse` (lwjson.c:365-514): iterate
`parseIter` until it exits.  Every iteration that continues consumes at
least one input character, so fuel `input length + 1` is enough; the
fuel-exhaustion branch is a modelling artifact. -/
def parseLoop : Nat → Lwjson → List Char → Nat → Bool → Lwjsonr × Lwjson
  | 0, lw, _, _, _ => (lwjsonERR, lw)
  | fuel + 1, lw, p, toR, fc =>
    match parseIter lw p toR fc with
    | .inl r => r
    | .inr (lw', p', toR') => parseLoop fuel lw' p' toR' false

/-- `lwjson_parse` (lwjson.c:347-524).  A C `NULL` input text is
`Option.none`. -/
def lwjson_parse (lw : Lwjson) (json_str : Option (List Char)) : Lwjsonr × Lwjson :=
  -- entry resets (lwjson.c:354-357)
  let lw0 := { lw with parsed := false, next_free_token_pos := 0, first_token := zeroToken }
  match json_str with
  | none => (lwjsonERRJSON, lw0)
  | some p =>
    if peekC p = nulC then (lwjsonERRJSON, lw0)   -- lwjson.c:359-362
    else
      let r := parseLoop (p.length + 1) lw0 p 0 true
      -- ret (lwjson.c:519-523): the parsed flag is set iff res is OK
      (r.1, { r.2 with parsed := r.1 == lwjsonOK })

/-- `lwjson_init` (lwjson.c:330-338), with the instance returned rather than
written through a pointer. -/
def lwjson_init (tokens_len : Nat) : Lwjson :=
  { tokens := List.replicate tokens_len zeroToken,
    tokens_len := tokens_len,
    next_free_token_pos := 0,
    first_token := { zeroToken with typ := .OBJECT },
    parsed := false }

/-- `lwjson_reset` (lwjson.c:531-535): `memset` the arena slots back to
zero.  Nothing else is touched — in particular `next_free_token_pos` keeps
its value. -/
def lwjson_reset (lw : Lwjson) : Lwjson :=
  { lw with tokens := List.replicate lw.tokens_len zeroToken }

/-- `prv_create_path_segment` (lwjson.c:242-276).  Returns the segment
slice, the advanced path and the `is_last` flag, or `none` (C returns 0).
In the `#` branch the local `s` stays on the `#`, so the final
`if (*s == 0) *is_last = 1` never fires there and `is_last` is always
false.  In the literal branch `*p = s + 1` may point one past the
terminating NUL; that cursor is only ever used when `is_last` is false, and
is modelled by `List.tail`. -/
def prv_create_path_segment (p : List Char) : Option (List Char × List Char × Bool) :=
  if peekC p = nulC then none
  else if peekC p = '#' then
    if peekC p.tail ≠ '.' then none
    else some (['#'], p.tail.tail, false)
  else
    let seg := p.takeWhile (fun c => c != nulC && c != '.')
    let rest := p.drop seg.length
    some (seg, rest.tail, peekC rest = nulC)

/-- A sibling chain collected by following `next`, as the C loops
`for (t = ..; t != NULL; t = t->next)` traverse it; fuel-bounded. -/
def childList (lw : Lwjson) : Nat → Option Nat → List Nat
  | _, none => []
  | 0, some _ => []
  | f + 1, some c => c :: childList lw f (getTok lw c).next

/-- `prv_find` (lwjson.c:284-321).  The child-scanning `for` loops are
`List.findSome?` over the collected sibling chain: the first child for which
the loop body produces a result wins, exactly as the C loops return out of
their first successful iteration.  Note that in the wildcard branch
(lwjson.c:294-302) `is_last` is not consulted. -/
def prv_find (lw : Lwjson) : Nat → Nat → List Char → Option Nat
  | 0, _, _ => none
  | fuel + 1, parent, path =>
    match prv_create_path_segment path with
    | none => none
    | some (seg, rest, is_last) =>
      if seg.headD nulC = '#' ∧ seg.length = 1 then
        -- array wildcard (lwjson.c:294-302)
        if (getTok lw parent).typ ≠ .ARRAY then none
        else
          (childList lw (lw.tokens_len + 1) (getTok lw parent).first_child).findSome?
            (fun t => prv_find lw fuel t rest)
      else
        -- literal segment (lwjson.c:303-318)
        if (getTok lw parent).typ ≠ .OBJECT then none
        else
          (childList lw (lw.tokens_len + 1) (getTok lw parent).first_child).findSome?
            (fun t =>
              if (getTok lw t).token_name = seg then
                (if is_last then some t else prv_find lw fuel t rest)
              else none)

/-- `lwjson_find` (lwjson.c:544-550) with `lwjson_get_first_token` inlined:
reject when the instance is not parsed or the path is the C `NULL`,
otherwise search from the root token (reference 0).  The recursion depth of
`prv_find` is at most one per path segment, so `path length + 1` fuel is
enough. -/
def lwjson_find (lw : Lwjson) (path : Option (List Char)) : Option Nat :=
  if lw.parsed = false then none
  else
    match path with
    | none => none
    | some pa => prv_find lw (pa.length + 1) 0 pa

/-- The `lwjson_get_val_int` accessor macro from lwjson.h. -/
def lwjson_get_val_int (tok : Option LwToken) : Int :=
  match tok with
  | some tk => if tk.typ = .NUM_INT then tk.num_int else 0
  | none => 0


/-! ## Concrete instances and documents used by the claims -/

/-- An instance bound to an 8-slot arena, as `lwjson_init` sets it up. -/
def exInit : Lwjson := lwjson_init 8

/-- The spec's running example document
`\x7b"a":\x7b"b":1\x7d,"c":[10,20,\x7b"d":30\x7d]\x7d`. -/
def exDoc : List Char :=
  ['{', '"', 'a', '"', ':', '{', '"', 'b', '"', ':', '1', '}', ',',
   '"', 'c', '"', ':', '[', '1', '0', ',', '2', '0', ',',
   '{', '"', 'd', '"', ':', '3', '0', '}', ']', '}']

/-- The instance after parsing `exDoc` (allocation order: `a` = 1, `b` = 2,
`c` = 3, `10` = 4, `20` = 5, the inner object = 6, `d` = 7). -/
def exLw : Lwjson := (lwjson_parse exInit (some exDoc)).2

/-- A document with a duplicated object key:
`\x7b"k":1,"k":2\x7d`. -/
def exDupDoc : List Char :=
  ['{', '"', 'k', '"', ':', '1', ',', '"', 'k', '"', ':', '2', '}']

/-- The instance after parsing `exDupDoc` (first `k` = 1, second `k` = 2). -/
def exDup : Lwjson := (lwjson_parse exInit (some exDupDoc)).2

/-- Four-deep nested arrays `[[[[]]]]`: needs three arena tokens. -/
def exDeep4 : List Char := ['[', '[', '[', '[', ']', ']', ']', ']']

/-- Three-deep nested arrays `[[[]]]`: needs two arena tokens. -/
def exDeep3 : List Char := ['[', '[', '[', ']', ']', ']']

/-- Second definition for the refinement comparison of claim C4, following
the spec's words rather than the source: the string's contents run up to the
first `"` preceded by an even count of consecutive backslashes; `none` when
no such quote exists before the input ends.  `bs` counts the backslashes
immediately preceding the current position. -/
def specStringScan : List Char → Nat → Option (List Char)
  | [], _ => none
  | c :: rest, bs =>
    if c = '"' ∧ bs % 2 = 0 then some []
    else if c = '\\' then (specStringScan rest (bs + 1)).map (fun cs => c :: cs)
    else (specStringScan rest 0).map (fun cs => c :: cs)

/-! ## Helper lemmas -/

lemma setTok_next_free (lw : Lwjson) (r : Nat) (t : LwToken) :
    (setTok lw r t).next_free_token_pos = lw.next_free_token_pos := by
  unfold setTok; split <;> rfl

lemma modifyTok_next_free (lw : Lwjson) (r : Nat) (f : LwToken → LwToken) :
    (modifyTok lw r f).next_free_token_pos = lw.next_free_token_pos :=
  setTok_next_free _ _ _

lemma alloc_next_free {lw lw' : Lwjson} {t : Nat}
    (h : prv_alloc_token lw = some (t, lw')) :
    lw'.next_free_token_pos = lw.next_free_token_pos + 1 := by
  unfold prv_alloc_token at h
  split at h
  · injection h with h'
    have := congrArg Prod.snd h'
    simp at this
    rw [← this]
  · exact absurd h (by simp)

lemma findSome?_none_of_all {α β : Type} (l : List α) (f : α → Option β)
    (h : ∀ a ∈ l, f a = none) : l.findSome? f = none := by
  induction l with
  | nil => rfl
  | cons a as ih =>
    have ha : f a = none := h a (List.mem_cons_self a as)
    rw [List.findSome?_cons, ha]
    exact ih (fun b hb => h b (List.mem_cons_of_mem a hb))

lemma prv_find_nil (lw : Lwjson) (fuel parent : Nat) :
    prv_find lw fuel parent [] = none := by
  cases fuel with
  | zero => rfl
  | succ n => rfl

/-! ## Claim theorems -/

/-- C1: evaluation at the failing input.  `lwjson_parse` on the single
character `\x7b` — a root object that is never closed — returns `lwjsonOK`
and sets the parsed flag, because falling off the end of the processing loop
with containers still open leaves `res` at `lwjsonOK` (lwjson.c:515-523): the
success flag is not confined to the root-close path.  (For contrast, `[1,2`
fails with the JSON error and a false flag, and even the root-close path with
a trailing blank, `[] `, returns `lwjsonERR` because `prv_skip_blank` does
not advance the cursor when it runs into the terminating NUL.) -/
theorem c1_success_without_root_close :
    (lwjson_parse exInit (some ['{'])).1 = lwjsonOK
    ∧ (lwjson_parse exInit (some ['{'])).2.parsed = true
    ∧ (lwjson_parse exInit (some ['[', '1', ',', '2'])).1 = lwjsonERRJSON
    ∧ (lwjson_parse exInit (some ['[', '1', ',', '2'])).2.parsed = false
    ∧ (lwjson_parse exInit (some ['[', ']', ' '])).1 = lwjsonERR
    ∧ (lwjson_parse exInit (some ['[', ']', ' '])).2.parsed = false
    ∧ (lwjson_parse exInit (some ['[', ']'])).1 = lwjsonOK := by
  refine ⟨by decide, by decide, by decide, by decide, by decide, by decide, by decide⟩

/-- C2: evaluation at the failing input.  `prv_parse_number` accepts the
leading-zero literal `01` as Integer 1 — the guard at lwjson.c:171 reads
`*s == '0' && (*(s+1) < '0' && *(s+1) > '9')`, a condition no character can
satisfy, so the rejection its comment announces never happens — while the
other classification examples of the claim hold as stated
(`1` → Integer 1, `1.0` → Real 1, `1e2` → Real 100, `-0.5` → Real −1/2). -/
theorem c2_leading_zero_accepted :
    prv_parse_number ['0', '1'] = .ok (.NUM_INT, ⟨1, 1⟩, 1, [])
    ∧ (lwjson_parse exInit (some ['[', '0', '1', ']'])).1 = lwjsonOK
    ∧ prv_parse_number ['1'] = .ok (.NUM_INT, ⟨1, 1⟩, 1, [])
    ∧ prv_parse_number ['1', '.', '0'] = .ok (.NUM_REAL, ⟨10, 10⟩, 1, [])
    ∧ RawReal.toRat ⟨10, 10⟩ = 1
    ∧ prv_parse_number ['1', 'e', '2'] = .ok (.NUM_REAL, ⟨100, 1⟩, 100, [])
    ∧ RawReal.toRat ⟨100, 1⟩ = 100
    ∧ prv_parse_number ['-', '0', '.', '5'] = .ok (.NUM_REAL, ⟨-5, 10⟩, 0, [])
    ∧ RawReal.toRat ⟨-5, 10⟩ = -(1 / 2) := by
  refine ⟨by decide, by decide, by decide, by decide, ?_, by decide, ?_, by decide, ?_⟩
  · norm_num [RawReal.toRat]
  · norm_num [RawReal.toRat]
  · norm_num [RawReal.toRat]

/-- C3: evaluation at the failing inputs.  A null text and the empty string
fail with `lwjsonERRJSON` as the claim states, but a blank-only string and
any input whose first non-blank character is not `\x7b`/`[` (including a
bare scalar document) fail with `lwjsonERRMEM` — the memory-error status
(lwjson.c:377) — not the malformed-input status.  The root-kind assignments
from the first character hold as claimed. -/
theorem c3_first_char_status :
    (lwjson_parse exInit none).1 = lwjsonERRJSON
    ∧ (lwjson_parse exInit (some [])).1 = lwjsonERRJSON
    ∧ (lwjson_parse exInit (some [' '])).1 = lwjsonERRMEM
    ∧ (lwjson_parse exInit (some ['x'])).1 = lwjsonERRMEM
    ∧ (lwjson_parse exInit (some ['t', 'r', 'u', 'e'])).1 = lwjsonERRMEM
    ∧ (lwjson_parse exInit (some [' '])).2.parsed = false
    ∧ (lwjson_parse exInit (some ['{', '}'])).2.first_token.typ = .OBJECT
    ∧ (lwjson_parse exInit (some ['[', ']'])).2.first_token.typ = .ARRAY := by
  refine ⟨by decide, by decide, by decide, by decide, by decide, by decide, by decide, by decide⟩

/-- C9: evaluation at the failing input.  Parsing `[[` succeeds (see C1),
and in the resulting tree the root's only child — arena token 1, an open
array — still has its `next` field pointing at reference 0, the root, i.e.
at its parent container: the temporary parent pointer of lwjson.c:436 leaks
into the tree exposed to callers whenever success comes from input
exhaustion rather than from the root-close path. -/
theorem c9_parent_pointer_leak :
    (lwjson_parse exInit (some ['[', '['])).1 = lwjsonOK
    ∧ (lwjson_parse exInit (some ['[', '['])).2.parsed = true
    ∧ (lwjson_parse exInit (some ['[', '['])).2.first_token.typ = .ARRAY
    ∧ (lwjson_parse exInit (some ['[', '['])).2.first_token.first_child = some 1
    ∧ (getTok (lwjson_parse exInit (some ['[', '['])).2 1).typ = .ARRAY
    ∧ (getTok (lwjson_parse exInit (some ['[', '['])).2 1).next = some 0 := by
  refine ⟨by decide, by decide, by decide, by decide, by decide, by decide⟩

/-- C10: any comma sitting at the top of the processing loop is consumed
without any grammar check (lwjson.c:383-386) — one loop step on a cursor
starting with `,` is exactly a loop step on the rest — and consequently the
out-of-grammar comma placements `[,1]`, `[1,,2]` and `[1,]` all parse with
status `lwjsonOK` and a set parsed flag. -/
theorem c10_comma_leniency :
    (∀ (fuel : Nat) (lw : Lwjson) (p : List Char) (t : Nat),
      parseLoop (fuel + 1) lw (',' :: p) t false = parseLoop fuel lw p t false)
    ∧ (lwjson_parse exInit (some ['[', ',', '1', ']'])).1 = lwjsonOK
    ∧ (lwjson_parse exInit (some ['[', ',', '1', ']'])).2.parsed = true
    ∧ (lwjson_parse exInit (some ['[', '1', ',', ',', '2', ']'])).1 = lwjsonOK
    ∧ (lwjson_parse exInit (some ['[', '1', ',', ',', '2', ']'])).2.parsed = true
    ∧ (lwjson_parse exInit (some ['[', '1', ',', ']'])).1 = lwjsonOK
    ∧ (lwjson_parse exInit (some ['[', '1', ',', ']'])).2.parsed = true := by
  refine ⟨fun fuel lw p t => rfl, by decide, by decide, by decide, by decide, by decide, by decide⟩

/-- C8, counterexample: after parsing `exDoc` the allocation cursor stands
at 7; `lwjson_reset` (which only `memset`s the slot array, lwjson.c:531-535)
leaves it at 7, not at the start as the claim asserts. -/
theorem c8_counterexample :
    exLw.next_free_token_pos = 7
    ∧ (lwjson_reset exLw).next_free_token_pos = 7
    ∧ (lwjson_reset exLw).next_free_token_pos ≠ 0 := by
  refine ⟨by decide, by decide, by decide⟩

/-- C8, amended: `lwjson_reset` zeroes all token slots and leaves the
capacity unchanged, but does not rewind `next_free_token_pos` (nor touch any
other field); the allocation cursor is instead rewound by `lwjson_parse`
itself at the start of each parse, so a reset instance still parses exactly
like a freshly initialized one. -/
theorem c8_reset_amended :
    (∀ lw : Lwjson,
      (lwjson_reset lw).tokens = List.replicate lw.tokens_len zeroToken
      ∧ (lwjson_reset lw).tokens_len = lw.tokens_len
      ∧ (lwjson_reset lw).next_free_token_pos = lw.next_free_token_pos
      ∧ (lwjson_reset lw).first_token = lw.first_token
      ∧ (lwjson_reset lw).parsed = lw.parsed)
    ∧ lwjson_parse (lwjson_reset exLw) (some exDupDoc)
        = lwjson_parse (lwjson_init 8) (some exDupDoc) := by
  refine ⟨fun lw => ⟨rfl, rfl, rfl, rfl, rfl⟩, by decide⟩
/-- C5, counterexample: on the spec's example document the array `c` exists
(reference 3, first element reference 4 holding Integer 10), yet
`find("c.#.")` returns `none` rather than that first element. -/
theorem c5_counterexample :
    (lwjson_parse exInit (some exDoc)).1 = lwjsonOK
    ∧ (getTok exLw 3).token_name = ['c']
    ∧ (getTok exLw 3).typ = .ARRAY
    ∧ (getTok exLw 3).first_child = some 4
    ∧ (getTok exLw 4).typ = .NUM_INT
    ∧ (getTok exLw 4).num_int = 10
    ∧ lwjson_find exLw (some ['c', '.', '#', '.']) = none := by
  refine ⟨by decide, by decide, by decide, by decide, by decide, by decide, by decide⟩

/-- C5, amended: a wildcard can never be the final effective segment.
`prv_create_path_segment` marks a `#` segment as last never (the scanner is
left standing on the `#`, lwjson.c:260-274), and the wildcard branch of
`prv_find` ignores `is_last` and always recurses with the remaining path —
which for a path ending in `#.` is empty and fails immediately — so a search
whose path ends right at the wildcard (such as `c.#.`) returns not-found,
for every tree and every starting token. -/
theorem c5_wildcard_last_amended :
    (∀ (lw : Lwjson) (fuel parent : Nat), prv_find lw fuel parent ['#', '.'] = none)
    ∧ lwjson_find exLw (some ['c', '.', '#', '.']) = none := by
  refine ⟨?_, by decide⟩
  intro lw fuel parent
  cases fuel with
  | zero => rfl
  | succ n =>
    show (if (getTok lw parent).typ ≠ LwType.ARRAY then none
          else (childList lw (lw.tokens_len + 1) (getTok lw parent).first_child).findSome?
            (fun t => prv_find lw n t [])) = none
    split
    · rfl
    · exact findSome?_none_of_all _ _ (fun a _ => prv_find_nil lw n a)
lemma takeWhile_all {l : List Char} {f : Char → Bool}
    (h : ∀ c ∈ l, f c = true) : l.takeWhile f = l := by
  induction l with
  | nil => rfl
  | cons c cs ih =>
    rw [List.takeWhile_cons, h c (List.mem_cons_self c cs)]
    exact congrArg (c :: ·) (ih (fun x hx => h x (List.mem_cons_of_mem c hx)))

/-- On a non-empty path with no NUL, no dot, and not starting with `#`,
`prv_create_path_segment` yields the whole path as a last literal segment. -/
lemma create_segment_literal (path : List Char) (h1 : path ≠ [])
    (h2 : nulC ∉ path) (h3 : path.head? ≠ some '#') (h4 : '.' ∉ path) :
    prv_create_path_segment path = some (path, [], true) := by
  obtain ⟨c, cs, rfl⟩ := List.exists_cons_of_ne_nil h1
  have hc : c ≠ nulC := fun h => h2 (h ▸ List.mem_cons_self c cs)
  have hch : c ≠ '#' := fun h => h3 (by simp [h])
  have hall : ∀ x ∈ c :: cs, (x != nulC && x != '.') = true := by
    intro x hx
    have hxn : x ≠ nulC := fun h => h2 (h ▸ hx)
    have hxd : x ≠ '.' := fun h => h4 (h ▸ hx)
    simp [hxn, hxd]
  have hpk : peekC (c :: cs) = c := rfl
  simp only [prv_create_path_segment, hpk, if_neg hc, if_neg hch,
    takeWhile_all hall, List.drop_length]
  rfl

lemma findSome?_guard {α : Type} (l : List α) (p : α → Bool) (f : α → Option α)
    (hf : ∀ a, f a = if p a then some a else none) :
    l.findSome? f = l.find? p := by
  induction l with
  | nil => rfl
  | cons a as ih =>
    rw [List.findSome?_cons, hf a]
    by_cases hp : p a = true
    · rw [if_pos hp, List.find?_cons_of_pos _ hp]
    · rw [if_neg (by simpa using hp), List.find?_cons_of_neg _ (by simpa using hp)]
      exact ih

/-- C6: for a literal (non-wildcard, dot-free, final) path segment, the
search requires the current token to be an Object — anything else is
not-found — and otherwise returns the first child in sibling order whose
name matches the segment by exact length and content (`List.find?` over the
collected sibling chain), not-found when no child matches.  Consequently on
the duplicate-key document `find("k")` yields the *first* `k` (reference 1,
Integer 1), and on the example document `find("a.b")` yields the token with
integer value 1. -/
theorem c6_literal_segment_search :
    (∀ (lw : Lwjson) (fuel parent : Nat) (path : List Char),
      path ≠ [] → nulC ∉ path → path.head? ≠ some '#' → '.' ∉ path →
      prv_find lw (fuel + 1) parent path =
        (if (getTok lw parent).typ = LwType.OBJECT then
          (childList lw (lw.tokens_len + 1) (getTok lw parent).first_child).find?
            (fun a => (getTok lw a).token_name == path)
        else none))
    ∧ lwjson_find exLw (some ['a', '.', 'b']) = some 2
    ∧ (getTok exLw 2).typ = .NUM_INT
    ∧ (getTok exLw 2).num_int = 1
    ∧ lwjson_find exDup (some ['k']) = some 1
    ∧ (getTok exDup 1).token_name = ['k']
    ∧ (getTok exDup 1).num_int = 1
    ∧ (getTok exDup 2).token_name = ['k']
    ∧ (getTok exDup 2).num_int = 2 := by
  refine ⟨?_, by decide, by decide, by decide, by decide, by decide, by decide,
    by decide, by decide⟩
  intro lw fuel parent path h1 h2 h3 h4
  have hseg := create_segment_literal path h1 h2 h3 h4
  obtain ⟨c, cs, rfl⟩ := List.exists_cons_of_ne_nil h1
  have hch : c ≠ '#' := fun h => h3 (by simp [h])
  rw [prv_find, hseg]
  have hwild : ¬((c :: cs).headD nulC = '#' ∧ (c :: cs).length = 1) := by
    rintro ⟨ha, -⟩
    exact hch ha
  dsimp only
  rw [if_neg hwild]
  split
  · rfl
  · rename_i hobj
    rw [if_pos (by simpa using hobj)]
    refine findSome?_guard _ _ _ (fun a => ?_)
    by_cases hm : (getTok lw a).token_name = c :: cs
    · simp [hm]
    · simp [hm]

/-- C6, witness: the general part of `c6_literal_segment_search`
instantiated on the duplicate-key document at the root with path `k`. -/
theorem c6_literal_segment_search_witness :
    ((['k'] : List Char) ≠ [] ∧ nulC ∉ (['k'] : List Char)
      ∧ (['k'] : List Char).head? ≠ some '#' ∧ '.' ∉ (['k'] : List Char))
    ∧ prv_find exDup 1 0 ['k'] =
        (if (getTok exDup 0).typ = LwType.OBJECT then
          (childList exDup (exDup.tokens_len + 1) (getTok exDup 0).first_child).find?
            (fun a => (getTok exDup a).token_name == ['k'])
        else none)
    ∧ prv_find exDup 1 0 ['k'] = some 1 := by
  refine ⟨⟨by decide, by decide, by decide, by decide⟩, ?_, by decide⟩
  exact c6_literal_segment_search.1 exDup 0 0 ['k'] (by decide) (by decide)
    (by decide) (by decide)
/-- Conditions under which the collecting loop of `prv_parse_string` runs
through `content` without stopping: no NUL, the first character is not an
unescaped quote relative to `prev`, and within `content` every quote is
immediately preceded by a backslash. -/
lemma strLoop_through (content : List Char) (rest : List Char) (prev : Char)
    (hn : nulC ∉ content)
    (h0 : content.head? = some '"' → prev = '\\')
    (hz : ∀ pr ∈ content.zip content.tail, pr.2 = '"' → pr.1 = '\\')
    (hl : content.getLast?.getD prev ≠ '\\') :
    strLoop (content ++ '"' :: rest) prev = .ok (content, rest) := by
  induction content generalizing prev with
  | nil =>
    have hprev : prev ≠ '\\' := by simpa using hl
    have hq : ('"' : Char) ≠ nulC := by decide
    simp [strLoop, hq, hprev]
  | cons c cs ih =>
    have hcnul : c ≠ nulC := fun h => hn (h ▸ List.mem_cons_self c cs)
    have hbody : ¬(c = '"' ∧ prev ≠ '\\') := by
      rintro ⟨hc, hp⟩
      exact hp (h0 (by simp [hc]))
    have hzc : cs ≠ [] → (c, cs.headD nulC) ∈ (c :: cs).zip ((c :: cs).tail) := by
      intro hne
      obtain ⟨d, ds, rfl⟩ := List.exists_cons_of_ne_nil hne
      exact List.mem_cons_self _ _
    have ihr := ih c
      (fun h => hn (List.mem_cons_of_mem c h))
      (by
        intro h
        obtain ⟨d, ds, rfl⟩ := List.exists_cons_of_ne_nil
          (show cs ≠ [] by intro hc; rw [hc] at h; exact Option.noConfusion h)
        have hd : d = '"' := by simpa using h
        exact hz _ (hzc (by simp)) (by simpa using hd))
      (by
        intro pr hpr
        cases cs with
        | nil => simp at hpr
        | cons d ds => exact hz pr (List.mem_cons_of_mem (c, d) hpr))
      (by
        cases cs with
        | nil => simpa using hl
        | cons d ds => simpa [List.getLast?_cons_cons] using hl)
    rw [List.cons_append, strLoop]
    rw [if_neg hcnul, if_neg hbody, ihr]
/-- When `content` holds no quote that terminates under the
previous-character rule, the collecting loop runs off the end of the input
and fails with the JSON-format error. -/
lemma strLoop_eof (content : List Char) (prev : Char)
    (hn : nulC ∉ content)
    (h0 : content.head? = some '"' → prev = '\\')
    (hz : ∀ pr ∈ content.zip content.tail, pr.2 = '"' → pr.1 = '\\') :
    strLoop content prev = .error lwjsonERRJSON := by
  induction content generalizing prev with
  | nil => rfl
  | cons c cs ih =>
    have hcnul : c ≠ nulC := fun h => hn (h ▸ List.mem_cons_self c cs)
    have hbody : ¬(c = '"' ∧ prev ≠ '\\') := by
      rintro ⟨hc, hp⟩
      exact hp (h0 (by simp [hc]))
    have hzc : cs ≠ [] → (c, cs.headD nulC) ∈ (c :: cs).zip ((c :: cs).tail) := by
      intro hne
      obtain ⟨d, ds, rfl⟩ := List.exists_cons_of_ne_nil hne
      exact List.mem_cons_self _ _
    have ihr := ih c
      (fun h => hn (List.mem_cons_of_mem c h))
      (by
        intro h
        obtain ⟨d, ds, rfl⟩ := List.exists_cons_of_ne_nil
          (show cs ≠ [] by intro hc; rw [hc] at h; exact Option.noConfusion h)
        have hd : d = '"' := by simpa using h
        exact hz _ (hzc (by simp)) (by simpa using hd))
      (by
        intro pr hpr
        cases cs with
        | nil => simp at hpr
        | cons d ds => exact hz pr (List.mem_cons_of_mem (c, d) hpr))
    rw [strLoop, if_neg hcnul, if_neg hbody, ihr]

/-- C4, counterexample: for the five-character literal `"a\\"` the closing
quote is preceded by two (an even count of) backslashes, so under the
claim's rule the string terminates there with the 3-character raw payload
`a\\`; `specStringScan`, written from the spec's words, confirms this — but
`prv_parse_string` only looks at the single previous character, treats that
quote as escaped, runs off the end of the input and fails. -/
theorem c4_counterexample :
    specStringScan ['a', '\\', '\\', '"'] 0 = some ['a', '\\', '\\']
    ∧ prv_parse_string ['"', 'a', '\\', '\\', '"'] = .error lwjsonERRJSON := by
  refine ⟨by decide, by decide⟩

/-- C4, amended: `prv_parse_string` requires an opening `"` and scans until
the first `"` whose *immediately preceding character* is not a backslash
(one-character lookbehind, not backslash parity), fails with the JSON-format
error when the input ends first, and returns the raw undecoded contents:
whenever every quote inside `content` is directly preceded by a backslash
and `content` does not itself end in a backslash, the literal
`"content"...` yields exactly `content` (so `"a\"b"` gives the 4-character
payload `a\"b`), and without a closing quote the scan fails. -/
theorem c4_string_scan_amended :
    (∀ content rest : List Char,
      nulC ∉ content → content.head? ≠ some '"' →
      (∀ pr ∈ content.zip content.tail, pr.2 = '"' → pr.1 = '\\') →
      content.getLast? ≠ some '\\' →
      ∃ p', prv_parse_string ('"' :: (content ++ '"' :: rest)) =
        .ok (content, content.length, p'))
    ∧ (∀ content : List Char,
      nulC ∉ content → content.head? ≠ some '"' →
      (∀ pr ∈ content.zip content.tail, pr.2 = '"' → pr.1 = '\\') →
      prv_parse_string ('"' :: content) = .error lwjsonERRJSON)
    ∧ prv_parse_string ['"', 'a', '\\', '"', 'b', '"'] = .ok (['a', '\\', '"', 'b'], 4, []) := by
  refine ⟨?_, ?_, by decide⟩
  · intro content rest hn h0 hz hl
    have hl' : content.getLast?.getD nulC ≠ '\\' := by
      cases hgl : content.getLast? with
      | none => decide
      | some x => simpa [hgl] using hl
    have hloop := strLoop_through content rest nulC hn (fun h => absurd h h0) hz hl'
    have key : prv_parse_string ('"' :: (content ++ '"' :: rest)) =
        (match strLoop (content ++ '"' :: rest) nulC with
         | .error e => .error e
         | .ok (cont, rst) =>
           .ok (cont, cont.length,
             prv_skip_blank (match rst with | '"' :: r => r | _ => rst))) := rfl
    rw [key, hloop]
    exact ⟨_, rfl⟩
  · intro content hn h0 hz
    have hloop := strLoop_eof content nulC hn (fun h => absurd h h0) hz
    have key : prv_parse_string ('"' :: content) =
        (match strLoop content nulC with
         | .error e => .error e
         | .ok (cont, rst) =>
           .ok (cont, cont.length,
             prv_skip_blank (match rst with | '"' :: r => r | _ => rst))) := rfl
    rw [key, hloop]

/-- C4, witness: the amended characterization instantiated on the literal
`"a\"b"` (success with the raw 4-character payload) and on the unterminated
literal `"abc` (end-of-input failure). -/
theorem c4_string_scan_amended_witness :
    (nulC ∉ (['a', '\\', '"', 'b'] : List Char)
      ∧ (['a', '\\', '"', 'b'] : List Char).head? ≠ some '"'
      ∧ (∀ pr ∈ (['a', '\\', '"', 'b'] : List Char).zip
          (['a', '\\', '"', 'b'] : List Char).tail, pr.2 = '"' → pr.1 = '\\')
      ∧ (['a', '\\', '"', 'b'] : List Char).getLast? ≠ some '\\')
    ∧ (∃ p', prv_parse_string ('"' :: ((['a', '\\', '"', 'b'] : List Char) ++ '"' :: [])) =
        .ok (['a', '\\', '"', 'b'], (['a', '\\', '"', 'b'] : List Char).length, p'))
    ∧ prv_parse_string ('"' :: (['a', 'b', 'c'] : List Char)) = .error lwjsonERRJSON := by
  refine ⟨⟨by decide, by decide, by decide, by decide⟩, ?_, ?_⟩
  · exact c4_string_scan_amended.1 ['a', '\\', '"', 'b'] [] (by decide) (by decide)
      (by decide) (by decide)
  · exact c4_string_scan_amended.2.1 ['a', 'b', 'c'] (by decide) (by decide) (by decide)
lemma appendChild_next_free (lw : Lwjson) (r t : Nat) :
    (appendChild lw r t).next_free_token_pos = lw.next_free_token_pos := by
  unfold appendChild
  split <;> exact modifyTok_next_free _ _ _

/-- The allocation cursor is untouched by the close-of-container step. -/
lemma parseClose_next_free (lw : Lwjson) (p : List Char) (toR : Nat) :
    (match parseClose lw p toR with
     | .inl r => r.2.next_free_token_pos
     | .inr s => s.1.next_free_token_pos) = lw.next_free_token_pos := by
  unfold parseClose
  cases hn : (getTok lw toR).next with
  | none => exact modifyTok_next_free _ _ _
  | some par => exact modifyTok_next_free _ _ _

/-- The allocation cursor is untouched by the after-value check. -/
lemma parseAfterValue_next_free (lw4 : Lwjson) (p3 : List Char) (toR : Nat) :
    (match parseAfterValue lw4 p3 toR with
     | .inl r => r.2.next_free_token_pos
     | .inr s => s.1.next_free_token_pos) = lw4.next_free_token_pos := by
  unfold parseAfterValue
  by_cases hc : peekC (prv_skip_blank p3) = nulC ∨
      (peekC (prv_skip_blank p3) ≠ ',' ∧ peekC (prv_skip_blank p3) ≠ ']'
        ∧ peekC (prv_skip_blank p3) ≠ '}')
  · rw [if_pos hc]
  · rw [if_neg hc]

/-- A successful scalar parse leaves the allocation cursor where it was. -/
lemma parseScalarValue_next_free {lw3 : Lwjson} {t : Nat} {p2 : List Char}
    {lw4 : Lwjson} {p3 : List Char}
    (h : parseScalarValue lw3 t p2 = .ok (lw4, p3)) :
    lw4.next_free_token_pos = lw3.next_free_token_pos := by
  unfold parseScalarValue at h
  split at h
  · split at h
    · simp at h
    · simp only [Except.ok.injEq, Prod.mk.injEq] at h
      rw [← h.1, modifyTok_next_free]
  · split at h
    · split at h
      · simp only [Except.ok.injEq, Prod.mk.injEq] at h
        rw [← h.1, modifyTok_next_free]
      · simp at h
    · split at h
      · split at h
        · simp only [Except.ok.injEq, Prod.mk.injEq] at h
          rw [← h.1, modifyTok_next_free]
        · simp at h
      · split at h
        · split at h
          · simp only [Except.ok.injEq, Prod.mk.injEq] at h
            rw [← h.1, modifyTok_next_free]
          · simp at h
        · split at h
          · split at h
            · simp at h
            · simp only [Except.ok.injEq, Prod.mk.injEq] at h
              rw [← h.1, modifyTok_next_free]
          · simp at h

/-- The allocation cursor is untouched by the value dispatch. -/
lemma parseValueDispatch_next_free (lw3 : Lwjson) (t : Nat) (p2 : List Char) (toR : Nat) :
    (match parseValueDispatch lw3 t p2 toR with
     | .inl r => r.2.next_free_token_pos
     | .inr s => s.1.next_free_token_pos) = lw3.next_free_token_pos := by
  unfold parseValueDispatch
  by_cases hc : peekC p2 = '{' ∨ peekC p2 = '['
  · rw [if_pos hc]
    exact modifyTok_next_free _ _ _
  · rw [if_neg hc]
    cases hv : parseScalarValue lw3 t p2 with
    | error e => rfl
    | ok s =>
      obtain ⟨lw4, p3⟩ := s
      have h4 := parseScalarValue_next_free hv
      rw [← h4]
      exact parseAfterValue_next_free lw4 p3 toR

/-- A successful property-name step leaves the allocation cursor where it
was. -/
lemma parsePropertyStep_next_free {lw1 : Lwjson} {p : List Char} {toR t : Nat}
    {lw2 : Lwjson} {p2 : List Char}
    (h : parsePropertyStep lw1 p toR t = .ok (lw2, p2)) :
    lw2.next_free_token_pos = lw1.next_free_token_pos := by
  unfold parsePropertyStep at h
  split at h
  · split at h
    · simp at h
    · split at h
      · simp at h
      · simp only [Except.ok.injEq, Prod.mk.injEq] at h
        rw [← h.1, modifyTok_next_free]
  · simp only [Except.ok.injEq, Prod.mk.injEq] at h
    rw [← h.1]

/-- The allocation cursor is untouched by the handling of a freshly
allocated token. -/
lemma parseNewToken_next_free (lw1 : Lwjson) (p : List Char) (toR t : Nat) :
    (match parseNewToken lw1 p toR t with
     | .inl r => r.2.next_free_token_pos
     | .inr s => s.1.next_free_token_pos) = lw1.next_free_token_pos := by
  unfold parseNewToken
  cases hn : parsePropertyStep lw1 p toR t with
  | error e => rfl
  | ok s =>
    obtain ⟨lw2, p2⟩ := s
    have h2 := parsePropertyStep_next_free hn
    have h3 := parseValueDispatch_next_free (appendChild lw2 toR t) t p2 toR
    rw [appendChild_next_free, h2] at h3
    exact h3

/-- One loop iteration never moves the allocation cursor backwards: it
either preserves it or, when a token is allocated, advances it by one. -/
lemma parseIter_next_free (lw : Lwjson) (p : List Char) (t : Nat) (fc : Bool) :
    lw.next_free_token_pos ≤
      (match parseIter lw p t fc with
       | .inl r => r.2.next_free_token_pos
       | .inr s => s.1.next_free_token_pos) := by
  unfold parseIter
  by_cases h1 : peekC p = nulC
  · rw [if_pos h1]
    exact Nat.le_of_eq (modifyTok_next_free _ _ _).symm
  · rw [if_neg h1]
    cases fc with
    | true =>
      rw [if_pos rfl]
      by_cases h2 : peekC (prv_skip_blank p) = '{'
      · rw [if_pos h2]
        exact Nat.le_of_eq (modifyTok_next_free _ _ _).symm
      · rw [if_neg h2]
        by_cases h3 : peekC (prv_skip_blank p) = '['
        · rw [if_pos h3]
          exact Nat.le_of_eq (modifyTok_next_free _ _ _).symm
        · rw [if_neg h3]
    | false =>
      rw [if_neg (by simp)]
      by_cases h2 : peekC (prv_skip_blank p) = ','
      · rw [if_pos h2]
      · rw [if_neg h2]
        by_cases h3 : peekC (prv_skip_blank p) =
            (if (getTok lw t).typ = LwType.OBJECT then '}' else ']')
        · rw [if_pos h3]
          exact Nat.le_of_eq (parseClose_next_free lw _ t).symm
        · rw [if_neg h3]
          cases ha : prv_alloc_token lw with
          | none => exact Nat.le_refl _
          | some s =>
            obtain ⟨tR, lw1⟩ := s
            have h4 : lw1.next_free_token_pos = lw.next_free_token_pos + 1 :=
              alloc_next_free ha
            have h5 := parseNewToken_next_free lw1 (prv_skip_blank p) t tR
            rw [h5, h4]
            exact Nat.le_succ _

/-- Within one pass of the processing loop the allocation cursor never
moves backwards: every iteration leaves `next_free_token_pos` unchanged or
advances it by one through `prv_alloc_token`. -/
lemma parseLoop_next_free_mono :
    ∀ (fuel : Nat) (lw : Lwjson) (p : List Char) (t : Nat) (fc : Bool),
      lw.next_free_token_pos ≤ (parseLoop fuel lw p t fc).2.next_free_token_pos := by
  intro fuel
  induction fuel with
  | zero => intro lw p t fc; exact Nat.le_refl _
  | succ n ih =>
    intro lw p t fc
    rw [parseLoop]
    have hstep := parseIter_next_free lw p t fc
    split
    · rename_i r heq
      rw [heq] at hstep
      exact hstep
    · rename_i lw' p' t' heq
      rw [heq] at hstep
      exact Nat.le_trans hstep (ih _ _ _ _)

/-- C7: a document nested deeper than the arena can hold fails with the
resource-exhaustion status `lwjsonERRMEM` and a false parsed flag
(`[[[[]]]]` against a 2-slot arena needs a third token), the same document
with nesting reduced below the capacity threshold parses successfully
(`[[[]]]` needs exactly the 2 available tokens), and within one parse pass
the allocation cursor is monotonic — no loop iteration ever moves
`next_free_token_pos` backwards, so no slot is reused. -/
theorem c7_token_exhaustion :
    (lwjson_parse (lwjson_init 2) (some exDeep4)).1 = lwjsonERRMEM
    ∧ (lwjson_parse (lwjson_init 2) (some exDeep4)).2.parsed = false
    ∧ (lwjson_parse (lwjson_init 2) (some exDeep3)).1 = lwjsonOK
    ∧ (lwjson_parse (lwjson_init 2) (some exDeep3)).2.parsed = true
    ∧ (lwjson_parse (lwjson_init 2) (some exDeep3)).2.next_free_token_pos = 2
    ∧ (∀ (fuel : Nat) (lw : Lwjson) (p : List Char) (t : Nat) (fc : Bool),
        lw.next_free_token_pos ≤ (parseLoop fuel lw p t fc).2.next_free_token_pos) := by
  refine ⟨by decide, by decide, by decide, by decide, by decide, parseLoop_next_free_mono⟩

end LwJson
